import Mathlib

/-!
Shallow embedding of the ai-trading simulation engine
(Pinia stores: market, trades, traders; plus the TradingDashboard orchestrator).

Conventions of the embedding:
* JS numbers that hold money or prices are modelled as rationals (ℚ);
  timestamps as integers (ℤ).
* JS x.toFixed(d) followed by Number(...) is modelled by rounding to d
  decimal places with ties toward +infinity, which is what the ECMAScript
  specification of toFixed prescribes ("if there are two such n, pick the
  larger n"): round2 and round1 below.
* Arrays are Lists; arr.slice(-n) is sliceLast, arr.slice(0, n) is take,
  unshift is cons, push is append of a singleton.
* Randomness (Math.random draws) is supplied by an oracle: every draw the
  code makes in one tick is a field of TickOracle, keyed by the asset
  symbol / trade id / trader id the draw is made for.  Any concrete run of
  the JS code corresponds to one oracle per tick.
* JS template strings are modelled with String append; the JS default
  number-to-string conversion is modelled by numStr.
-/

namespace AiTrading

/-- JS Number(x.toFixed(2)): round to 2 decimals, ties toward +infinity. -/
def round2 (x : ℚ) : ℚ := (⌊x * 100 + 1/2⌋ : ℚ) / 100

/-- JS Number(x.toFixed(1)): round to 1 decimal, ties toward +infinity. -/
def round1 (x : ℚ) : ℚ := (⌊x * 10 + 1/2⌋ : ℚ) / 10

/-- JS arr.slice(-n): the last n elements (the whole array when shorter). -/
def sliceLast (n : ℕ) (l : List α) : List α := l.drop (l.length - n)

/-- Model of the JS default number-to-string conversion (template strings). -/
def numStr (q : ℚ) : String := toString q

/-- JS arr.findIndex + arr.splice(index, 1) combined: remove the first
element satisfying p, returning it together with the remaining list;
none when no element matches (findIndex returned -1). -/
def extractFirst (p : α → Bool) : List α → Option (α × List α)
  | [] => none
  | x :: xs =>
    if p x then some (x, xs)
    else (extractFirst p xs).map (fun r => (r.1, x :: r.2))

/-! ### Market store (src/stores/market.js) -/

structure PricePoint where
  time : ℤ
  price : ℚ
  deriving Repr, DecidableEq

structure Asset where
  symbol : String
  name : String
  price : ℚ
  history : List PricePoint
  deriving Repr, DecidableEq

structure MarketState where
  assets : List Asset
  tick : ℕ
  deriving Repr, DecidableEq

/-- The ASSETS seed table of the market store. -/
def ASSETS : List (String × String × ℚ) :=
  [("BTC", "Bitcoin", 31500), ("ETH", "Ethereum", 2200),
   ("AAPL", "Apple", 189), ("TSLA", "Tesla", 172)]

/-- Initial market state: each seed asset with a one-point history stamped
with the initialization time (Date.now() at store creation). -/
def initialMarket (t0 : ℤ) : MarketState :=
  { assets := ASSETS.map (fun a =>
      { symbol := a.1, name := a.2.1, price := a.2.2
        history := [{ time := t0, price := a.2.2 }] })
    tick := 0 }

/-- evolvePrice from the market store, with the three random draws (drift,
volatility, shock) supplied explicitly:
next = price * (1 + drift + volatility + shock), then
Math.max(next, price * 0.5, 5). -/
def evolvePrice (price drift volatility shock : ℚ) : ℚ :=
  max (price * (1 + drift + volatility + shock)) (max (price * 0.5) 5)

/-- One asset's update inside generateNextTick: nextPrice is the evolved
price rounded to 2 decimals; the history is trimmed to its last 120 points
and the new point is pushed onto it. -/
def tickAsset (drift volatility shock : ℚ) (timestamp : ℤ) (a : Asset) : Asset :=
  let nextPrice := round2 (evolvePrice a.price drift volatility shock)
  let history := sliceLast 120 a.history ++ [{ time := timestamp, price := nextPrice }]
  { a with price := nextPrice, history := history }

/-! ### Trades store (src/stores/trades.js) -/

structure AnalysisNote where
  id : String
  aiTrader : String
  summary : String
  timestamp : ℤ
  deriving Repr, DecidableEq

/-- A trade object.  The three fields added by closeTrade when the JS object
is re-spread with extra properties are modelled as Option fields, none while
the trade is open. -/
structure Trade where
  id : String
  aiTrader : String
  asset : String
  type : String
  entryPrice : ℚ
  size : ℚ
  timestamp : ℤ
  status : String
  analysis : String
  stopLoss : ℚ
  takeProfit : ℚ
  exitPrice : Option ℚ := none
  pnl : Option ℚ := none
  closeTimestamp : Option ℤ := none
  deriving Repr, DecidableEq

/-- The payload handed to createTrade. -/
structure TradePayload where
  traderId : String
  asset : String
  type : String
  entryPrice : ℚ
  size : ℚ
  analysis : String
  timestamp : ℤ
  deriving Repr, DecidableEq

structure TradesState where
  openPositions : List Trade
  history : List Trade
  analyses : List AnalysisNote
  deriving Repr, DecidableEq

def initialTrades : TradesState :=
  { openPositions := [], history := [], analyses := [] }

/-- buildTrade from the trades store. -/
def buildTrade (p : TradePayload) : Trade :=
  { id := p.traderId ++ "-" ++ toString p.timestamp
    aiTrader := p.traderId
    asset := p.asset
    type := p.type
    entryPrice := p.entryPrice
    size := p.size
    timestamp := p.timestamp
    status := "open"
    analysis := p.analysis
    stopLoss := round2 (p.entryPrice * (if p.type == "long" then 0.97 else 1.03))
    takeProfit := round2 (p.entryPrice * (if p.type == "long" then 1.03 else 0.97)) }

/-- The createTrade action: push the built trade onto openPositions and push
an analysis note derived from the payload, returning the trade. -/
def createTrade (p : TradePayload) (s : TradesState) : Trade × TradesState :=
  let trade := buildTrade p
  (trade,
   { s with
      openPositions := s.openPositions ++ [trade]
      analyses := s.analyses ++
        [{ id := trade.id, aiTrader := p.traderId
           summary := p.analysis, timestamp := p.timestamp }] })

/-- The closeTrade action: find the open trade by id (null result when
absent), splice it out, compute the rounded pnl, build the closed trade,
unshift it onto the history and truncate the history to 200 entries. -/
def closeTrade (tradeId : String) (exitPrice : ℚ) (timestamp : ℤ)
    (s : TradesState) : Option Trade × TradesState :=
  match extractFirst (fun trade => trade.id == tradeId) s.openPositions with
  | none => (none, s)
  | some (trade, rest) =>
    let pnl := round2
      (if trade.type == "long"
        then (exitPrice - trade.entryPrice) * trade.size
        else (trade.entryPrice - exitPrice) * trade.size)
    let closedTrade := { trade with
      status := "closed"
      exitPrice := some (round2 exitPrice)
      pnl := some pnl
      closeTimestamp := some timestamp }
    (some closedTrade,
     { s with
        openPositions := rest
        history := (closedTrade :: s.history).take 200 })

/-- The lastAnalyses getter: state.analyses.slice(-8).reverse(). -/
def lastAnalyses (s : TradesState) : List AnalysisNote :=
  (sliceLast 8 s.analyses).reverse

/-! ### Traders store (src/stores/traders.js) -/

structure BalancePoint where
  time : ℤ
  balance : ℚ
  deriving Repr, DecidableEq

structure TraderStats where
  bestTrade : Option Trade
  worstTrade : Option Trade
  winRate : ℚ
  totalTrades : ℕ
  wins : ℕ
  maxDrawdown : ℚ
  peakBalance : ℚ
  deriving Repr, DecidableEq

structure Trader where
  id : String
  name : String
  color : String
  avatar : String
  riskTolerance : String
  preferredAssets : List String
  analysisStyle : String
  balance : ℚ
  startOfDayBalance : ℚ
  balanceHistory : List BalancePoint
  lastAnalysis : String
  stats : TraderStats
  deriving Repr, DecidableEq

/-- The traders object is keyed by trader id; Object.values preserves
insertion order, so the state is an insertion-ordered association list. -/
structure TradersState where
  traders : List (String × Trader)
  deriving Repr, DecidableEq

def BASE_BALANCE : ℚ := 10000

/-- One entry of the strategies table together with the per-run fields the
store's state initializer adds. -/
def mkTrader (t0 : ℤ) (id name color avatar riskTolerance : String)
    (preferredAssets : List String) (analysisStyle : String) : Trader :=
  { id := id, name := name, color := color, avatar := avatar
    riskTolerance := riskTolerance
    preferredAssets := preferredAssets
    analysisStyle := analysisStyle
    balance := BASE_BALANCE
    startOfDayBalance := BASE_BALANCE
    balanceHistory := [{ time := t0, balance := BASE_BALANCE }]
    lastAnalysis := "Inicializando estrategia..."
    stats := { bestTrade := none, worstTrade := none, winRate := 0
               totalTrades := 0, wins := 0, maxDrawdown := 0
               peakBalance := BASE_BALANCE } }

/-- Initial traders state: the four strategies in declaration order. -/
def initialTraders (t0 : ℤ) : TradersState :=
  { traders :=
      [("grok", mkTrader t0 "grok" "Grok" "grok" "🤖" "Alta"
          ["BTC", "ETH"] "Técnico"),
       ("claude", mkTrader t0 "claude" "Claude" "claude" "🧠" "Media"
          ["AAPL", "TSLA", "ETH"] "Fundamental"),
       ("chatgpt", mkTrader t0 "chatgpt" "ChatGPT" "chatgpt" "💡" "Baja"
          ["AAPL", "TSLA"] "Mixta"),
       ("gemini", mkTrader t0 "gemini" "Gemini" "gemini" "🌌" "Variable"
          ["BTC", "ETH", "TSLA"] "Cuantitativa")] }

/-- Lookup this.traders[traderId]; mutate in place when found, the guard
if (!trader) return makes an unknown id a no-op. -/
def modifyTrader (traderId : String) (f : Trader → Trader)
    (s : TradersState) : TradersState :=
  { traders := s.traders.map (fun kv => if kv.1 == traderId then (kv.1, f kv.2) else kv) }

/-- Body of the updateBalance action on the found trader. -/
def updateBalanceT (delta : ℚ) (time : ℤ) (tr : Trader) : Trader :=
  let balance := round2 (tr.balance + delta)
  let balanceHistory := sliceLast 240 (tr.balanceHistory ++ [{ time := time, balance := balance }])
  let peakBalance := max tr.stats.peakBalance balance
  let drawdown := peakBalance - balance
  let maxDrawdown := max tr.stats.maxDrawdown (round2 drawdown)
  { tr with balance := balance, balanceHistory := balanceHistory
            stats := { tr.stats with peakBalance := peakBalance
                                     maxDrawdown := maxDrawdown } }

/-- The updateBalance action (meta.time is the supplied timestamp). -/
def updateBalance (traderId : String) (delta : ℚ) (time : ℤ)
    (s : TradersState) : TradersState :=
  modifyTrader traderId (updateBalanceT delta time) s

/-- JS (trade.pnl ?? -Infinity) > (other.pnl ?? -Infinity), with a missing
pnl standing for minus infinity. -/
def pnlGt (a b : Option ℚ) : Bool :=
  match a, b with
  | some x, some y => x > y
  | some _, none => true
  | none, _ => false

/-- JS (trade.pnl ?? Infinity) < (other.pnl ?? Infinity), with a missing
pnl standing for plus infinity. -/
def pnlLt (a b : Option ℚ) : Bool :=
  match a, b with
  | some x, some y => x < y
  | some _, none => true
  | none, _ => false

/-- Body of the registerTrade action on the found trader. -/
def registerTradeT (trade : Trade) (tr : Trader) : Trader :=
  let totalTrades := tr.stats.totalTrades + 1
  let isWin : Bool := match trade.pnl with
    | some p => p ≠ 0 && p > 0
    | none => false
  let wins := tr.stats.wins + (if isWin then 1 else 0)
  let winRate : ℚ :=
    if totalTrades == 0 then 0
    else round1 ((wins : ℚ) / (totalTrades : ℚ) * 100)
  let bestTrade := match tr.stats.bestTrade with
    | none => some trade
    | some b => if pnlGt trade.pnl b.pnl then some trade else some b
  let worstTrade := match tr.stats.worstTrade with
    | none => some trade
    | some w => if pnlLt trade.pnl w.pnl then some trade else some w
  { tr with stats := { tr.stats with
      totalTrades := totalTrades, wins := wins, winRate := winRate
      bestTrade := bestTrade, worstTrade := worstTrade } }

/-- The registerTrade action. -/
def registerTrade (traderId : String) (trade : Trade)
    (s : TradersState) : TradersState :=
  modifyTrader traderId (registerTradeT trade) s

/-- The setAnalysis action. -/
def setAnalysis (traderId : String) (analysis : String)
    (s : TradersState) : TradersState :=
  modifyTrader traderId (fun tr => { tr with lastAnalysis := analysis }) s

/-! ### Tick orchestrator (src/components/TradingDashboard.vue) -/

/-- All Math.random draws and Date.now reads one call of runSimulationTick
makes, keyed by the entity the draw is made for: drift/vol/shock by asset
symbol, closeRand by trade id, the entry draws by trader id.  Any realized
random sequence of the JS code is one such oracle. -/
structure TickOracle where
  now : ℤ
  drift : String → ℚ
  vol : String → ℚ
  shock : String → ℚ
  closeRand : String → ℚ
  openRand : String → ℚ
  pickIdx : String → ℕ
  sizeRand : String → ℚ
  dirRand : String → ℚ

/-- The generateNextTick action of the market store: evolve every asset
(each with its own draws) and bump the tick counter.  The returned
timestamp of the JS action is the oracle's now field. -/
def generateNextTick (o : TickOracle) (m : MarketState) : MarketState :=
  { assets := m.assets.map (fun a =>
      tickAsset (o.drift a.symbol) (o.vol a.symbol) (o.shock a.symbol) o.now a)
    tick := m.tick + 1 }

/-- currentPrices[trade.asset]?.price ?? fallback.  The assetPriceMap object
is keyed by symbol; symbols are pairwise distinct, so the first match is
the map entry. -/
def assetPrice (m : MarketState) (symbol : String) (fallback : ℚ) : ℚ :=
  match m.assets.find? (fun a => a.symbol == symbol) with
  | some a => a.price
  | none => fallback

/-- The riskSizeMap object of the dashboard. -/
def riskSizeMap (r : String) : Option ℚ :=
  if r == "Alta" then some 1.8
  else if r == "Media" then some 1.2
  else if r == "Baja" then some 0.8
  else if r == "Variable" then some 1.5
  else none

/-- selectAsset: filter to the trader's preferred symbols, fall back to the
whole universe when the filter is empty, pick at random.  The random index
Math.floor(random * length) is modelled as pickIdx modulo the length; none
can only occur for an empty asset universe, which no reachable market state
has. -/
def selectAsset (o : TickOracle) (trader : Trader) (m : MarketState) : Option Asset :=
  let pool := m.assets.filter (fun a => trader.preferredAssets.contains a.symbol)
  let candidates := if pool.length != 0 then pool else m.assets
  candidates.get? (o.pickIdx trader.id % candidates.length)

/-- The rationale lookup object of buildAnalysis; a style outside the table
would interpolate as the string undefined in JS. -/
def rationaleFor (style : String) : String :=
  if style == "Técnico" then "ruptura de media móvil y momentum positivo"
  else if style == "Fundamental" then "noticias macro favorables y sólidos fundamentales"
  else if style == "Mixta" then "confluencia de indicadores técnicos y sentimiento del mercado"
  else if style == "Cuantitativa" then "señal estadística con alta probabilidad"
  else "undefined"

/-- buildAnalysis from the dashboard. -/
def buildAnalysis (trader : Trader) (asset : Asset) (type : String) (price : ℚ) : String :=
  let sentiment := if type == "long" then "sesgo alcista" else "sesgo bajista"
  trader.name ++ " detecta " ++ sentiment ++ " en " ++ asset.symbol ++ " a " ++
    numStr price ++ ". Basado en " ++ rationaleFor trader.analysisStyle ++ "."

/-- JS q.toFixed(2) as a string, for the closing summary message. -/
def fmt2 (q : ℚ) : String :=
  let k := ⌊q * 100 + 1/2⌋
  let sign := if k < 0 then "-" else ""
  let a := k.natAbs
  sign ++ toString (a / 100) ++ "." ++
    (if a % 100 < 10 then "0" else "") ++ toString (a % 100)

/-- The body of the forEach loop of maybeCloseTrades, for one open trade of
the snapshot: close it when its bracket is hit or the hold draw fails, and
on a successful close update balance, register the trade and set the
closing summary.  The market is only read. -/
def closeStep (o : TickOracle) (market : MarketState) (trader : Trader)
    (timestamp : ℤ) (st : TradesState × TradersState) (trade : Trade) :
    TradesState × TradersState :=
  let price := assetPrice market trade.asset trade.entryPrice
  let hitTp : Bool := if trade.type == "long"
    then decide (price ≥ trade.takeProfit) else decide (price ≤ trade.takeProfit)
  let hitSl : Bool := if trade.type == "long"
    then decide (price ≤ trade.stopLoss) else decide (price ≥ trade.stopLoss)
  let holdProbability : ℚ := if trader.riskTolerance == "Baja" then 0.2 else 0.35
  let shouldClose := hitTp || hitSl || decide (o.closeRand trade.id > holdProbability)
  if shouldClose then
    match closeTrade trade.id price timestamp st.1 with
    | (some closed, trades) =>
      let pnl := closed.pnl.getD 0
      let traders := updateBalance trader.id pnl timestamp st.2
      let traders := registerTrade trader.id closed traders
      let summary := trader.name ++ " cierra " ++ trade.asset ++
        " con P&L de $" ++ fmt2 pnl ++ "."
      let traders := setAnalysis trader.id summary traders
      (trades, traders)
    | (none, _) => st
  else st

/-- maybeCloseTrades: iterate closeStep over the snapshot of the trader's
open positions taken before the loop starts. -/
def maybeCloseTrades (o : TickOracle) (market : MarketState) (trader : Trader)
    (timestamp : ℤ) (st : TradesState × TradersState) : TradesState × TradersState :=
  let snapshot := st.1.openPositions.filter (fun trade => trade.aiTrader == trader.id)
  snapshot.foldl (closeStep o market trader timestamp) st

/-- maybeOpenTrade: skip at three or more active positions, then open one
position with the entry draw, derived size, random direction and the
current asset price, and record the analysis text. -/
def maybeOpenTrade (o : TickOracle) (market : MarketState) (trader : Trader)
    (timestamp : ℤ) (st : TradesState × TradersState) : TradesState × TradersState :=
  let active := st.1.openPositions.filter (fun trade => trade.aiTrader == trader.id)
  if active.length ≥ 3 then st
  else
    let shouldTrade := decide (o.openRand trader.id < 0.4)
    if !shouldTrade then st
    else match selectAsset o trader market with
      | none => st
      | some asset =>
        let size := round2 ((riskSizeMap trader.riskTolerance).getD 1 *
          (o.sizeRand trader.id * 0.6 + 0.4))
        let type := if o.dirRand trader.id > (0.5 : ℚ) then "long" else "short"
        let price := asset.price
        let analysis := buildAnalysis trader asset type price
        let trades := (createTrade
          { traderId := trader.id, asset := asset.symbol, type := type
            entryPrice := price, size := size, analysis := analysis
            timestamp := timestamp } st.1).2
        let traders := setAnalysis trader.id analysis st.2
        (trades, traders)

/-- The whole simulation state: the three Pinia stores. -/
structure SimState where
  market : MarketState
  traders : TradersState
  trades : TradesState

/-- One trader's slice of the tick: first evaluate exits, then entries. -/
def traderStep (o : TickOracle) (market : MarketState) (timestamp : ℤ)
    (st : TradesState × TradersState) (trader : Trader) : TradesState × TradersState :=
  maybeOpenTrade o market trader timestamp
    (maybeCloseTrades o market trader timestamp st)

/-- runSimulationTick: advance the market, then for each trader (traderList
order, the traders object's insertion order) first evaluate exits, then
entries. -/
def runSimulationTick (o : TickOracle) (s : SimState) : SimState :=
  let market := generateNextTick o s.market
  let timestamp := o.now
  let traderList := s.traders.traders.map (fun kv => kv.2)
  let st := traderList.foldl (traderStep o market timestamp) (s.trades, s.traders)
  { market := market, traders := st.2, trades := st.1 }

/-- The initial state of the three stores. -/
def initState (t0 : ℤ) : SimState :=
  { market := initialMarket t0, traders := initialTraders t0, trades := initialTrades }

/-- An external event: a full simulation tick, a balance adjustment, or a
trade close called directly on the ledger. -/
inductive Ev where
  | tick (o : TickOracle)
  | adjust (traderId : String) (delta : ℚ) (time : ℤ)
  | close (tradeId : String) (exitPrice : ℚ) (time : ℤ)

/-- Apply one external event to the simulation state. -/
def stepEv (s : SimState) (e : Ev) : SimState :=
  match e with
  | .tick o => runSimulationTick o s
  | .adjust id d t => { s with traders := updateBalance id d t s.traders }
  | .close tid p t => { s with trades := (closeTrade tid p t s.trades).2 }

/-- Number of open positions held by one trader. -/
def countOpen (traderId : String) (s : TradesState) : ℕ :=
  (s.openPositions.filter (fun trade => trade.aiTrader == traderId)).length

/-! ### Arithmetic facts about the rounding helpers -/

lemma round2_mono {x y : ℚ} (h : x ≤ y) : round2 x ≤ round2 y := by
  unfold round2
  have hf : (⌊x * 100 + 1/2⌋ : ℤ) ≤ ⌊y * 100 + 1/2⌋ :=
    Int.floor_le_floor (by linarith)
  have hq : ((⌊x * 100 + 1/2⌋ : ℤ) : ℚ) ≤ ((⌊y * 100 + 1/2⌋ : ℤ) : ℚ) :=
    Int.cast_le.mpr hf
  linarith

lemma round2_eq_self {x : ℚ} (k : ℤ) (hk : x = (k : ℚ) / 100) : round2 x = x := by
  subst hk
  unfold round2
  have h1 : (k : ℚ) / 100 * 100 + 1/2 = 1/2 + (k : ℚ) := by ring
  rw [h1, Int.floor_add_int]
  norm_num

lemma round2_idem (x : ℚ) : round2 (round2 x) = round2 x :=
  round2_eq_self ⌊x * 100 + 1/2⌋ rfl

lemma round2_as_int (x : ℚ) : ∃ k : ℤ, round2 x = (k : ℚ) / 100 :=
  ⟨⌊x * 100 + 1/2⌋, rfl⟩

lemma le_round2_of_half_cent (m : ℤ) : (m : ℚ) / 200 ≤ round2 ((m : ℚ) / 200) := by
  unfold round2
  have h1 : (m : ℚ) / 200 * 100 + 1/2 = ((m : ℚ) + 1) / 2 := by ring
  rw [h1]
  have h2 : ((m : ℚ) + 1) / 2 - 1 < (⌊((m : ℚ) + 1) / 2⌋ : ℚ) :=
    Int.sub_one_lt_floor _
  have h3 : (m : ℚ) < 2 * (⌊((m : ℚ) + 1) / 2⌋ : ℚ) + 1 := by linarith
  have h4 : m < 2 * ⌊((m : ℚ) + 1) / 2⌋ + 1 := by exact_mod_cast h3
  have h5 : m ≤ 2 * ⌊((m : ℚ) + 1) / 2⌋ := by omega
  have h6 : (m : ℚ) ≤ 2 * (⌊((m : ℚ) + 1) / 2⌋ : ℚ) := by exact_mod_cast h5
  linarith

lemma round2_nonneg {x : ℚ} (h : 0 ≤ x) : 0 ≤ round2 x := by
  unfold round2
  have h1 : (0 : ℤ) ≤ ⌊x * 100 + 1/2⌋ := Int.le_floor.mpr (by push_cast; linarith)
  have h2 : (0 : ℚ) ≤ (⌊x * 100 + 1/2⌋ : ℚ) := Int.cast_nonneg.mpr h1
  linarith

lemma half_cent_le_of_round2_pos {x : ℚ} (h : 0 < round2 x) : 1/200 ≤ x := by
  unfold round2 at h
  have h1 : (0 : ℚ) < (⌊x * 100 + 1/2⌋ : ℚ) := by linarith
  have h2 : (0 : ℤ) < ⌊x * 100 + 1/2⌋ := by exact_mod_cast h1
  have h3 : (1 : ℤ) ≤ ⌊x * 100 + 1/2⌋ := h2
  have h4 : (1 : ℚ) ≤ x * 100 + 1/2 := by exact_mod_cast Int.le_floor.mp h3
  linarith

lemma round1_nonneg {x : ℚ} (h : 0 ≤ x) : 0 ≤ round1 x := by
  unfold round1
  have h1 : (0 : ℤ) ≤ ⌊x * 10 + 1/2⌋ := Int.le_floor.mpr (by push_cast; linarith)
  have h2 : (0 : ℚ) ≤ (⌊x * 10 + 1/2⌋ : ℚ) := Int.cast_nonneg.mpr h1
  linarith

lemma round1_le_hundred {x : ℚ} (h : x ≤ 100) : round1 x ≤ 100 := by
  unfold round1
  have h1 : (⌊x * 10 + 1/2⌋ : ℤ) ≤ ⌊(1/2 : ℚ) + (1000 : ℤ)⌋ :=
    Int.floor_le_floor (by push_cast; linarith)
  rw [Int.floor_add_int] at h1
  have h2 : (⌊x * 10 + 1/2⌋ : ℤ) ≤ 1000 := by
    have : ⌊(1/2 : ℚ)⌋ = 0 := by norm_num
    omega
  have h3 : ((⌊x * 10 + 1/2⌋ : ℤ) : ℚ) ≤ 1000 := by exact_mod_cast h2
  linarith

/-! ### Facts about the list helpers -/

lemma length_sliceLast (n : ℕ) (l : List α) :
    (sliceLast n l).length = min n l.length := by
  simp [sliceLast]
  omega

lemma length_sliceLast_le (n : ℕ) (l : List α) : (sliceLast n l).length ≤ n := by
  rw [length_sliceLast]; omega

lemma extractFirst_eq_none {p : α → Bool} {l : List α}
    (h : ∀ x ∈ l, p x = false) : extractFirst p l = none := by
  induction l with
  | nil => rfl
  | cons x xs ih =>
    have hx := h x (by simp)
    simp [extractFirst, hx, ih (fun y hy => h y (by simp [hy]))]

lemma extractFirst_append_cons {p : α → Bool} {l1 : List α} {x : α} (l2 : List α)
    (h1 : ∀ y ∈ l1, p y = false) (hx : p x = true) :
    extractFirst p (l1 ++ x :: l2) = some (x, l1 ++ l2) := by
  induction l1 with
  | nil => simp [extractFirst, hx]
  | cons a as ih =>
    have ha := h1 a (by simp)
    have ih' := ih (fun y hy => h1 y (by simp [hy]))
    simp [extractFirst, ha, ih']

lemma extractFirst_mem {p : α → Bool} {l : List α} {a : α} {rest : List α}
    (h : extractFirst p l = some (a, rest)) : a ∈ l := by
  induction l generalizing rest with
  | nil => simp [extractFirst] at h
  | cons x xs ih =>
    by_cases hx : p x
    · simp [extractFirst, hx] at h
      simp [h.1]
    · cases hb : extractFirst p xs with
      | none => simp [extractFirst, hx, hb] at h
      | some r =>
        obtain ⟨a', r'⟩ := r
        simp [extractFirst, hx, hb] at h
        obtain ⟨h1, h2⟩ := h
        subst h1
        exact List.mem_cons_of_mem _ (ih hb)

lemma extractFirst_filter_length_le {p q : α → Bool} {l : List α} {a : α} {rest : List α}
    (h : extractFirst p l = some (a, rest)) :
    (rest.filter q).length ≤ (l.filter q).length := by
  induction l generalizing rest with
  | nil => simp [extractFirst] at h
  | cons x xs ih =>
    by_cases hx : p x
    · simp [extractFirst, hx] at h
      rw [← h.2, List.filter_cons]
      split <;> simp
    · cases hb : extractFirst p xs with
      | none => simp [extractFirst, hx, hb] at h
      | some r =>
        obtain ⟨a', r'⟩ := r
        simp [extractFirst, hx, hb] at h
        obtain ⟨h1, h2⟩ := h
        subst h1
        subst h2
        rw [List.filter_cons, List.filter_cons]
        have := ih hb
        split <;> simpa using this

lemma map_eq_self_of {l : List α} {f : α → α} (h : ∀ x ∈ l, f x = x) :
    l.map f = l := by
  induction l with
  | nil => rfl
  | cons x xs ih =>
    simp [h x (by simp), ih (fun y hy => h y (by simp [hy]))]

lemma foldl_nat_le {α β : Type} (f : α → ℕ) (g : α → β → α)
    (h : ∀ st x, f (g st x) ≤ f st) (l : List β) (st : α) :
    f (l.foldl g st) ≤ f st := by
  induction l generalizing st with
  | nil => simp
  | cons x xs ih => exact le_trans (ih (g st x)) (h st x)

lemma foldl_inv {α β : Type} (P : α → Prop) (g : α → β → α)
    (h : ∀ st x, P st → P (g st x)) (l : List β) (st : α) (hst : P st) :
    P (l.foldl g st) := by
  induction l generalizing st with
  | nil => exact hst
  | cons x xs ih => exact ih (g st x) (h st x hst)

/-! ### Open-position counting (claim C10) -/

lemma countOpen_closeTrade_le (traderId tid : String) (xp : ℚ) (t : ℤ)
    (s : TradesState) :
    countOpen traderId ((closeTrade tid xp t s).2) ≤ countOpen traderId s := by
  unfold closeTrade
  cases hb : extractFirst (fun trade => trade.id == tid) s.openPositions with
  | none => simp
  | some r =>
    obtain ⟨tr, rest⟩ := r
    simp only [countOpen]
    exact extractFirst_filter_length_le hb

lemma countOpen_closeStep_le (o : TickOracle) (market : MarketState)
    (trader : Trader) (t : ℤ) (st : TradesState × TradersState) (trade : Trade)
    (traderId : String) :
    countOpen traderId (closeStep o market trader t st trade).1 ≤ countOpen traderId st.1 := by
  unfold closeStep
  simp only []
  have hle := countOpen_closeTrade_le traderId trade.id
    (assetPrice market trade.asset trade.entryPrice) t st.1
  cases hc : closeTrade trade.id (assetPrice market trade.asset trade.entryPrice) t st.1 with
  | mk c trades =>
    rw [hc] at hle
    cases c with
    | none =>
      repeat' split
      all_goals first
        | exact le_refl _
        | simp_all
    | some closed =>
      repeat' split
      all_goals first
        | exact hle
        | exact le_refl _
        | simp_all

lemma countOpen_maybeCloseTrades_le (o : TickOracle) (market : MarketState)
    (trader : Trader) (t : ℤ) (st : TradesState × TradersState) (traderId : String) :
    countOpen traderId (maybeCloseTrades o market trader t st).1 ≤ countOpen traderId st.1 := by
  unfold maybeCloseTrades
  exact foldl_nat_le (fun st => countOpen traderId st.1) _
    (fun st trade => countOpen_closeStep_le o market trader t st trade traderId) _ st

lemma countOpen_createTrade (traderId : String) (p : TradePayload) (s : TradesState) :
    countOpen traderId (createTrade p s).2 =
      countOpen traderId s + (if p.traderId == traderId then 1 else 0) := by
  unfold countOpen createTrade
  simp only []
  rw [List.filter_append, List.length_append]
  have haid : (buildTrade p).aiTrader = p.traderId := rfl
  by_cases hb : (p.traderId == traderId) = true
  · simp [List.filter_cons, haid, hb]
  · have hb' : (p.traderId == traderId) = false := by simpa using hb
    simp [List.filter_cons, haid, hb']

lemma countOpen_maybeOpenTrade (o : TickOracle) (market : MarketState)
    (trader : Trader) (t : ℤ) (st : TradesState × TradersState)
    (h : ∀ id, countOpen id st.1 ≤ 3) :
    ∀ id, countOpen id (maybeOpenTrade o market trader t st).1 ≤ 3 := by
  intro id
  unfold maybeOpenTrade
  simp only []
  split
  · exact h id
  · split
    · exact h id
    · cases hsel : selectAsset o trader market with
      | none => exact h id
      | some asset =>
        simp only []
        rw [countOpen_createTrade]
        by_cases hid : (trader.id == id) = true
        · have hid' : trader.id = id := eq_of_beq hid
          have hlt : ¬ (st.1.openPositions.filter
              (fun trade => trade.aiTrader == trader.id)).length ≥ 3 := by
            assumption
          have hco : countOpen trader.id st.1 ≤ 2 := by
            unfold countOpen
            omega
          rw [hid]
          simp only [if_true]
          rw [← hid']
          omega
        · rw [if_neg hid]
          simpa using h id

lemma countOpen_traderStep (o : TickOracle) (market : MarketState) (t : ℤ)
    (st : TradesState × TradersState) (trader : Trader)
    (h : ∀ id, countOpen id st.1 ≤ 3) :
    ∀ id, countOpen id (traderStep o market t st trader).1 ≤ 3 := by
  unfold traderStep
  exact countOpen_maybeOpenTrade o market trader t _
    (fun id => le_trans (countOpen_maybeCloseTrades_le o market trader t st id) (h id))

lemma countOpen_runSimulationTick (o : TickOracle) (s : SimState)
    (h : ∀ id, countOpen id s.trades ≤ 3) :
    ∀ id, countOpen id (runSimulationTick o s).trades ≤ 3 := by
  unfold runSimulationTick
  simp only []
  exact foldl_inv (fun st => ∀ id, countOpen id st.1 ≤ 3)
    (traderStep o (generateNextTick o s.market) o.now)
    (fun st trader hst =>
      countOpen_traderStep o (generateNextTick o s.market) o.now st trader hst)
    (s.traders.traders.map (fun kv => kv.2)) (s.trades, s.traders) h

/-- C10: in every state reachable by repeatedly running runSimulationTick
from the initial state, each agent holds at most 3 open positions: entry
evaluation opens at most one position per agent per tick and is skipped
whenever the agent already holds 3 or more, so the per-agent open-position
count never exceeds 3, for any random draws. -/
theorem C10_max_three_open (t0 : ℤ) (oracles : List TickOracle) (traderId : String) :
    countOpen traderId
      ((oracles.foldl (fun s o => runSimulationTick o s) (initState t0)).trades) ≤ 3 := by
  refine foldl_inv (fun s => ∀ id, countOpen id s.trades ≤ 3)
    (fun s o => runSimulationTick o s)
    (fun s o hs => countOpen_runSimulationTick o s hs)
    oracles (initState t0) ?_ traderId
  intro id
  simp [initState, initialTrades, countOpen]

/-! ### The ledger operations: analyses log and close semantics -/

lemma reverse_sliceLast (n : ℕ) (l : List α) :
    (sliceLast n l).reverse = l.reverse.take n := by
  have h : sliceLast n l = l.rtake n := rfl
  rw [h, List.rtake_eq_reverse_take_reverse, List.reverse_reverse]

/-- Functional characterization of a successful closeTrade call. -/
lemma closeTrade_eq_some {tid : String} {xp : ℚ} {t : ℤ} {s : TradesState}
    {ct : Trade} {s' : TradesState}
    (h : closeTrade tid xp t s = (some ct, s')) :
    ∃ tr rest,
      extractFirst (fun trade => trade.id == tid) s.openPositions = some (tr, rest) ∧
      ct = { tr with
              status := "closed"
              exitPrice := some (round2 xp)
              pnl := some (round2 (if tr.type == "long"
                then (xp - tr.entryPrice) * tr.size
                else (tr.entryPrice - xp) * tr.size))
              closeTimestamp := some t } ∧
      s' = { s with
              openPositions := rest
              history := (ct :: s.history).take 200 } := by
  unfold closeTrade at h
  cases hb : extractFirst (fun trade => trade.id == tid) s.openPositions with
  | none => rw [hb] at h; simp at h
  | some r =>
    obtain ⟨tr, rest⟩ := r
    rw [hb] at h
    simp only [Prod.mk.injEq, Option.some.injEq] at h
    obtain ⟨h1, h2⟩ := h
    refine ⟨tr, rest, rfl, h1.symm, ?_⟩
    rw [← h2, h1]

/-- A concrete open ledger used by several witnesses. -/
def sampleTrade : Trade :=
  { id := "grok-5", aiTrader := "grok", asset := "BTC", type := "long"
    entryPrice := 100, size := 1, timestamp := 5, status := "open"
    analysis := "nota", stopLoss := 97, takeProfit := 103 }

def sampleLedger : TradesState :=
  { openPositions := [sampleTrade], history := [], analyses := [] }

/-- C2 (amended): an AnalysisNote whose id is the trade id is appended to
the ledger's analyses log on every openPosition (createTrade) call;
closePosition (closeTrade) appends nothing to the analyses log; only the
most recent 8 notes, in reverse-chronological order, are surfaced by the
recent-analyses projection. -/
theorem C2_amended_analyses (p : TradePayload) (s s1 s2 : TradesState)
    (tid : String) (xp : ℚ) (t : ℤ) :
    (createTrade p s).2.analyses = s.analyses ++
      [{ id := (createTrade p s).1.id, aiTrader := p.traderId
         summary := p.analysis, timestamp := p.timestamp }] ∧
    ((closeTrade tid xp t s1).2).analyses = s1.analyses ∧
    lastAnalyses s2 = s2.analyses.reverse.take 8 := by
  refine ⟨rfl, ?_, ?_⟩
  · unfold closeTrade
    cases hb : extractFirst (fun trade => trade.id == tid) s1.openPositions with
    | none => rfl
    | some r => obtain ⟨tr, rest⟩ := r; rfl
  · unfold lastAnalyses
    exact reverse_sliceLast 8 s2.analyses

/-- C2 counterexample: closing the only open trade of a concrete ledger
succeeds (the result is not null), yet the analyses log stays empty: no
AnalysisNote is appended on a successful closePosition call. -/
theorem C2_counterexample :
    (closeTrade "grok-5" 103 9 sampleLedger).1.isSome = true ∧
    ((closeTrade "grok-5" 103 9 sampleLedger).2).analyses = [] := by
  have he : extractFirst (fun trade => trade.id == "grok-5") sampleLedger.openPositions
      = some (sampleTrade, []) := by
    simp [sampleLedger, sampleTrade, extractFirst]
  unfold closeTrade
  rw [he]
  exact ⟨rfl, rfl⟩

/-- C3: for every open trade (the first trade carrying the requested id:
all trades before it have other ids) and every exitPrice, a successful
closePosition removes that trade from the open set, sets status to closed,
stamps the close timestamp, computes the pnl as (exitPrice - entryPrice) *
size for long and (entryPrice - exitPrice) * size for short rounded to 2
decimal places, prepends the result to the closed-trade log, and truncates
that log to its most recent 200 entries. -/
theorem C3_closePosition (s : TradesState) (l1 l2 : List Trade) (tr : Trade)
    (tid : String) (xp : ℚ) (t : ℤ)
    (hsplit : s.openPositions = l1 ++ tr :: l2)
    (hfirst : ∀ x ∈ l1, (x.id == tid) = false)
    (hid : (tr.id == tid) = true) :
    let ct : Trade := { tr with
      status := "closed"
      exitPrice := some (round2 xp)
      pnl := some (round2 (if tr.type == "long"
        then (xp - tr.entryPrice) * tr.size
        else (tr.entryPrice - xp) * tr.size))
      closeTimestamp := some t }
    closeTrade tid xp t s =
      (some ct, { s with
                  openPositions := l1 ++ l2
                  history := (ct :: s.history).take 200 }) := by
  intro ct
  unfold closeTrade
  rw [hsplit, extractFirst_append_cons l2 hfirst hid]

/-- Witness for C3 at a concrete ledger with one open long trade. -/
theorem C3_closePosition_witness :
    (let ct : Trade := { sampleTrade with
        status := "closed"
        exitPrice := some (round2 103)
        pnl := some (round2 (if sampleTrade.type == "long"
          then ((103 : ℚ) - sampleTrade.entryPrice) * sampleTrade.size
          else (sampleTrade.entryPrice - (103 : ℚ)) * sampleTrade.size))
        closeTimestamp := some (9 : ℤ) }
     closeTrade "grok-5" 103 9 sampleLedger =
       (some ct, { sampleLedger with
                   openPositions := [] ++ []
                   history := (ct :: sampleLedger.history).take 200 })) :=
  C3_closePosition sampleLedger [] [] sampleTrade "grok-5" 103 9 rfl
    (by simp) (by decide)

/-- The concrete result of closing sampleLedger's only trade at price 103. -/
def sampleClosed : Trade :=
  { sampleTrade with
    status := "closed"
    exitPrice := some (round2 103)
    pnl := some (round2 (if sampleTrade.type == "long"
      then ((103 : ℚ) - sampleTrade.entryPrice) * sampleTrade.size
      else (sampleTrade.entryPrice - (103 : ℚ)) * sampleTrade.size))
    closeTimestamp := some (9 : ℤ) }

def sampleClosedLedger : TradesState :=
  { sampleLedger with
    openPositions := []
    history := (sampleClosed :: sampleLedger.history).take 200 }

lemma closeTrade_sample :
    closeTrade "grok-5" 103 9 sampleLedger = (some sampleClosed, sampleClosedLedger) := by
  have he : extractFirst (fun trade => trade.id == "grok-5") sampleLedger.openPositions
      = some (sampleTrade, []) := by
    simp [sampleLedger, sampleTrade, extractFirst]
  unfold closeTrade
  rw [he]
  rfl

/-- A payload whose entry price needs rounding, for C4 and C7. -/
def oddPayload : TradePayload :=
  { traderId := "grok", asset := "BTC", type := "long", entryPrice := 100.01
    size := 1, analysis := "n", timestamp := 3 }

/-- C4 counterexample: at entry price 100.01 the stored long stop loss is
the rounded 97.01, not the exact product 100.01 * 0.97 = 97.0097, so
stopLossPrice = entryPrice * 0.97 fails as an exact equation. -/
theorem C4_counterexample :
    (buildTrade oddPayload).stopLoss ≠ (buildTrade oddPayload).entryPrice * 0.97 := by
  have h1 : (buildTrade oddPayload).stopLoss = round2 ((100.01 : ℚ) * 0.97) := by
    simp [buildTrade, oddPayload]
  have h2 : (buildTrade oddPayload).entryPrice = (100.01 : ℚ) := rfl
  rw [h1, h2]
  norm_num [round2]

/-- C4 (amended): the brackets are the 3% products rounded to 2 decimal
places: stopLoss = round2(entry * 0.97) and takeProfit = round2(entry *
1.03) for long, the factors swapped otherwise; both fields are set at
creation and never change afterwards: the trade that closePosition removes
(the first open trade carrying the requested id) reappears as the closed
trade with its own stopLoss and takeProfit unchanged. -/
theorem C4_amended_brackets (p : TradePayload) (s : TradesState) (tid : String)
    (xp : ℚ) (t : ℤ) (ct : Trade) (s' : TradesState) (tr : Trade) (rest : List Trade)
    (h : closeTrade tid xp t s = (some ct, s'))
    (he : extractFirst (fun trade => trade.id == tid) s.openPositions = some (tr, rest)) :
    ((p.type == "long") = true →
      (buildTrade p).stopLoss = round2 (p.entryPrice * 0.97) ∧
      (buildTrade p).takeProfit = round2 (p.entryPrice * 1.03)) ∧
    ((p.type == "long") = false →
      (buildTrade p).stopLoss = round2 (p.entryPrice * 1.03) ∧
      (buildTrade p).takeProfit = round2 (p.entryPrice * 0.97)) ∧
    (tr ∈ s.openPositions ∧ ct.stopLoss = tr.stopLoss ∧ ct.takeProfit = tr.takeProfit) := by
  refine ⟨?_, ?_, ?_⟩
  · intro hl; constructor <;> simp [buildTrade, hl]
  · intro hl; constructor <;> simp [buildTrade, hl]
  · obtain ⟨tr', rest', hb, hct, hs⟩ := closeTrade_eq_some h
    have hpair : tr' = tr ∧ rest' = rest := by
      have hsome := he.symm.trans hb
      simp only [Option.some.injEq, Prod.mk.injEq] at hsome
      exact ⟨hsome.1.symm, hsome.2.symm⟩
    obtain ⟨rfl, rfl⟩ := hpair
    exact ⟨extractFirst_mem he, by rw [hct], by rw [hct]⟩

/-- Witness for C4 with the odd payload and the concrete sample close of
sampleTrade, the extracted trade. -/
theorem C4_amended_brackets_witness :
    ((oddPayload.type == "long") = true →
      (buildTrade oddPayload).stopLoss = round2 (oddPayload.entryPrice * 0.97) ∧
      (buildTrade oddPayload).takeProfit = round2 (oddPayload.entryPrice * 1.03)) ∧
    ((oddPayload.type == "long") = false →
      (buildTrade oddPayload).stopLoss = round2 (oddPayload.entryPrice * 1.03) ∧
      (buildTrade oddPayload).takeProfit = round2 (oddPayload.entryPrice * 0.97)) ∧
    (sampleTrade ∈ sampleLedger.openPositions ∧
      sampleClosed.stopLoss = sampleTrade.stopLoss ∧
      sampleClosed.takeProfit = sampleTrade.takeProfit) :=
  C4_amended_brackets oddPayload sampleLedger "grok-5" 103 9 sampleClosed
    sampleClosedLedger sampleTrade [] closeTrade_sample
    (by simp [sampleLedger, sampleTrade, extractFirst])

/-- A trade whose unrounded pnl is below half a cent, for C5. -/
def tinyTrade : Trade :=
  { id := "grok-1", aiTrader := "grok", asset := "BTC", type := "long"
    entryPrice := 100, size := 0.32, timestamp := 1, status := "open"
    analysis := "n", stopLoss := 97, takeProfit := 103 }

def tinyLedger : TradesState :=
  { openPositions := [tinyTrade], history := [], analyses := [] }

/-- C5 counterexample: a long trade entered at 100 with size 0.32 closed at
exit price 100.01 has exitPrice > entryPrice, but its realized pnl rounds
to exactly 0, so realizedPnl > 0 iff exitPrice > entryPrice fails. -/
theorem C5_counterexample :
    (100 : ℚ) < 100.01 ∧
    ((closeTrade "grok-1" 100.01 2 tinyLedger).1.bind (fun ct => ct.pnl)) = some 0 := by
  have he : extractFirst (fun trade => trade.id == "grok-1") tinyLedger.openPositions
      = some (tinyTrade, []) := by
    simp [tinyLedger, tinyTrade, extractFirst]
  constructor
  · norm_num
  · unfold closeTrade
    rw [he]
    simp only [Option.bind, tinyTrade]
    norm_num [round2]

/-- C5 (amended): for every trade closed by closePosition with a positive
size, a strictly positive realizedPnl implies the price moved in the
trade's favor (long: exitPrice > entryPrice, short: exitPrice <
entryPrice), and a favorable move implies realizedPnl ≥ 0; the converse
strict implication fails because a move worth less than half a cent rounds
to a pnl of exactly zero. -/
theorem C5_amended_pnl_sign (s : TradesState) (tid : String) (xp : ℚ) (t : ℤ)
    (ct : Trade) (s' : TradesState)
    (h : closeTrade tid xp t s = (some ct, s')) (hsz : 0 < ct.size) :
    ((ct.type == "long") = true →
      ((0 < ct.pnl.getD 0 → ct.entryPrice < xp) ∧
       (ct.entryPrice < xp → 0 ≤ ct.pnl.getD 0))) ∧
    ((ct.type == "long") = false →
      ((0 < ct.pnl.getD 0 → xp < ct.entryPrice) ∧
       (xp < ct.entryPrice → 0 ≤ ct.pnl.getD 0))) := by
  obtain ⟨tr, rest, hb, hct, hs⟩ := closeTrade_eq_some h
  have hty : ct.type = tr.type := by rw [hct]
  have hep : ct.entryPrice = tr.entryPrice := by rw [hct]
  have hsize : ct.size = tr.size := by rw [hct]
  rw [hsize] at hsz
  constructor
  · intro hl
    rw [hty] at hl
    have hpd : ct.pnl.getD 0 = round2 ((xp - tr.entryPrice) * tr.size) := by
      rw [hct]; simp [hl]
    rw [hpd, hep]
    constructor
    · intro hp
      have hhc := half_cent_le_of_round2_pos hp
      by_contra hc
      push_neg at hc
      nlinarith
    · intro hlt
      exact round2_nonneg (by nlinarith)
  · intro hl
    rw [hty] at hl
    have hpd : ct.pnl.getD 0 = round2 ((tr.entryPrice - xp) * tr.size) := by
      rw [hct]; simp [hl]
    rw [hpd, hep]
    constructor
    · intro hp
      have hhc := half_cent_le_of_round2_pos hp
      by_contra hc
      push_neg at hc
      nlinarith
    · intro hlt
      exact round2_nonneg (by nlinarith)

/-- Witness for C5 at the concrete sample close (size 1 > 0). -/
theorem C5_amended_pnl_sign_witness :
    ((sampleClosed.type == "long") = true →
      ((0 < sampleClosed.pnl.getD 0 → sampleClosed.entryPrice < 103) ∧
       (sampleClosed.entryPrice < 103 → 0 ≤ sampleClosed.pnl.getD 0))) ∧
    ((sampleClosed.type == "long") = false →
      ((0 < sampleClosed.pnl.getD 0 → (103 : ℚ) < sampleClosed.entryPrice) ∧
       ((103 : ℚ) < sampleClosed.entryPrice → 0 ≤ sampleClosed.pnl.getD 0))) :=
  C5_amended_pnl_sign sampleLedger "grok-5" 103 9 sampleClosed sampleClosedLedger
    closeTrade_sample (by norm_num [sampleClosed, sampleTrade])

/-- C6: for every tick and every asset whose current price is a whole
number of cents (as every stored price is: seed prices are integers and
every generated price is a round2 result), the price produced by the price
generator is at least max(5, 0.5 * previous price), including the rounding
applied when the new price is stored; and the new price is again a whole
number of cents. -/
theorem C6_price_floor (a : Asset) (drift vol shock : ℚ) (t : ℤ) (k : ℤ)
    (hk : a.price = (k : ℚ) / 100) :
    max 5 (0.5 * a.price) ≤ (tickAsset drift vol shock t a).price ∧
    ∃ m : ℤ, (tickAsset drift vol shock t a).price = (m : ℚ) / 100 := by
  have hprice : (tickAsset drift vol shock t a).price
      = round2 (evolvePrice a.price drift vol shock) := rfl
  constructor
  · have hev : max (a.price * 0.5) 5 ≤ evolvePrice a.price drift vol shock :=
      le_max_right _ _
    have h5 : (5 : ℚ) ≤ round2 (evolvePrice a.price drift vol shock) := by
      have hfix : round2 (5 : ℚ) = 5 := round2_eq_self 500 (by norm_num)
      calc (5 : ℚ) = round2 5 := hfix.symm
        _ ≤ round2 (evolvePrice a.price drift vol shock) :=
          round2_mono (le_trans (le_max_right _ _) hev)
    have hhalf : 0.5 * a.price ≤ round2 (evolvePrice a.price drift vol shock) := by
      have he1 : a.price * 0.5 = (k : ℚ) / 200 := by rw [hk]; ring
      have he2 : (k : ℚ) / 200 ≤ round2 ((k : ℚ) / 200) := le_round2_of_half_cent k
      have he3 : round2 ((k : ℚ) / 200) ≤ round2 (evolvePrice a.price drift vol shock) := by
        apply round2_mono
        rw [← he1]
        exact le_trans (le_max_left _ _) hev
      calc 0.5 * a.price = (k : ℚ) / 200 := by rw [hk]; ring
        _ ≤ round2 ((k : ℚ) / 200) := he2
        _ ≤ _ := he3
    rw [hprice]
    exact max_le h5 hhalf
  · rw [hprice]
    exact round2_as_int _

/-- A concrete seed asset for the C6 witness. -/
def btcAsset : Asset :=
  { symbol := "BTC", name := "Bitcoin", price := 31500
    history := [{ time := 0, price := 31500 }] }

/-- Witness for C6 at the BTC seed asset with zero draws. -/
theorem C6_price_floor_witness :
    max 5 (0.5 * btcAsset.price) ≤ (tickAsset 0 0 0 0 btcAsset).price ∧
    ∃ m : ℤ, (tickAsset 0 0 0 0 btcAsset).price = (m : ℚ) / 100 :=
  C6_price_floor btcAsset 0 0 0 0 3150000 (by norm_num [btcAsset])

/-- A payload whose entry price has a third decimal digit, for C7. -/
def thirdDecimalPayload : TradePayload :=
  { traderId := "grok", asset := "BTC", type := "long", entryPrice := 100.005
    size := 1, analysis := "n", timestamp := 4 }

/-- C7 counterexample: openPosition stores the entry price exactly as
supplied; at 100.005 the stored entry price differs from its own value
rounded to 2 decimals (100.01), so the entry price is not rounded at the
point of derivation. -/
theorem C7_counterexample :
    (buildTrade thirdDecimalPayload).entryPrice = 100.005 ∧
    round2 (buildTrade thirdDecimalPayload).entryPrice ≠
      (buildTrade thirdDecimalPayload).entryPrice := by
  refine ⟨rfl, ?_⟩
  have h : (buildTrade thirdDecimalPayload).entryPrice = (100.005 : ℚ) := rfl
  rw [h]
  norm_num [round2]

/-- C7 (amended): the stored exit price, the realized pnl and both bracket
prices each equal their own value rounded to 2 decimal places, for every
openPosition and successful closePosition call; the stored entry price is
the caller's value verbatim and is not rounded by the ledger. -/
theorem C7_amended_rounding (p : TradePayload) (s : TradesState) (tid : String)
    (xp : ℚ) (t : ℤ) (ct : Trade) (s' : TradesState)
    (h : closeTrade tid xp t s = (some ct, s')) :
    round2 (buildTrade p).stopLoss = (buildTrade p).stopLoss ∧
    round2 (buildTrade p).takeProfit = (buildTrade p).takeProfit ∧
    (buildTrade p).entryPrice = p.entryPrice ∧
    round2 (ct.exitPrice.getD 0) = ct.exitPrice.getD 0 ∧
    round2 (ct.pnl.getD 0) = ct.pnl.getD 0 := by
  obtain ⟨tr, rest, hb, hct, hs⟩ := closeTrade_eq_some h
  refine ⟨round2_idem _, round2_idem _, rfl, ?_, ?_⟩
  · have hx : ct.exitPrice.getD 0 = round2 xp := by rw [hct]; rfl
    rw [hx]
    exact round2_idem xp
  · have hx : ct.pnl.getD 0 = round2 (if tr.type == "long"
        then (xp - tr.entryPrice) * tr.size
        else (tr.entryPrice - xp) * tr.size) := by rw [hct]; rfl
    rw [hx]
    exact round2_idem _

/-- Witness for C7 with the third-decimal payload and the sample close. -/
theorem C7_amended_rounding_witness :
    round2 (buildTrade thirdDecimalPayload).stopLoss = (buildTrade thirdDecimalPayload).stopLoss ∧
    round2 (buildTrade thirdDecimalPayload).takeProfit = (buildTrade thirdDecimalPayload).takeProfit ∧
    (buildTrade thirdDecimalPayload).entryPrice = thirdDecimalPayload.entryPrice ∧
    round2 (sampleClosed.exitPrice.getD 0) = sampleClosed.exitPrice.getD 0 ∧
    round2 (sampleClosed.pnl.getD 0) = sampleClosed.pnl.getD 0 :=
  C7_amended_rounding thirdDecimalPayload sampleLedger "grok-5" 103 9 sampleClosed
    sampleClosedLedger closeTrade_sample

/-- C8: not-found anomalies are absorbed without state change: closePosition
on a trade id absent from the open set returns null and leaves the ledger
exactly unchanged, and updateBalance, registerTrade or setAnalysis on an
agent id absent from the registry leaves the registry exactly unchanged. -/
theorem C8_not_found_noop (s : TradesState) (tid : String)
    (hp : ∀ tr ∈ s.openPositions, (tr.id == tid) = false)
    (xp : ℚ) (t : ℤ) (reg : TradersState) (aid : String)
    (ha : ∀ kv ∈ reg.traders, (kv.1 == aid) = false)
    (d : ℚ) (tm : ℤ) (ct : Trade) (txt : String) :
    closeTrade tid xp t s = (none, s) ∧
    updateBalance aid d tm reg = reg ∧
    registerTrade aid ct reg = reg ∧
    setAnalysis aid txt reg = reg := by
  have hmod : ∀ f : Trader → Trader, modifyTrader aid f reg = reg := by
    intro f
    unfold modifyTrader
    have hmap : reg.traders.map
        (fun kv => if kv.1 == aid then (kv.1, f kv.2) else kv) = reg.traders := by
      apply map_eq_self_of
      intro kv hkv
      rw [ha kv hkv]
      simp
    rw [hmap]
  refine ⟨?_, hmod _, hmod _, hmod _⟩
  unfold closeTrade
  rw [extractFirst_eq_none hp]

/-- Witness for C8: unknown trade id on the empty initial ledger and
unknown agent id on the initial registry. -/
theorem C8_not_found_noop_witness :
    closeTrade "nope" 1 0 initialTrades = (none, initialTrades) ∧
    updateBalance "zzz" 5 0 (initialTraders 0) = initialTraders 0 ∧
    registerTrade "zzz" sampleTrade (initialTraders 0) = initialTraders 0 ∧
    setAnalysis "zzz" "hola" (initialTraders 0) = initialTraders 0 :=
  C8_not_found_noop initialTrades "nope" (by simp [initialTrades]) 1 0
    (initialTraders 0) "zzz" (by decide) 5 0 sampleTrade "hola"

/-! ### Agent registry statistics (claim C9) -/

/-- One registry mutation of the kind C9 quantifies over. -/
inductive RegOp where
  | adjust (delta : ℚ) (time : ℤ)
  | record (trade : Trade)

/-- Apply one registry operation to one agent: the per-trader bodies of the
updateBalance and registerTrade actions. -/
def applyRegOp (op : RegOp) (tr : Trader) : Trader :=
  match op with
  | .adjust d t => updateBalanceT d t tr
  | .record trade => registerTradeT trade tr

/-- The statistics sanity predicate: wins never exceed total trades and the
win rate is a percentage. -/
def StatsInv (tr : Trader) : Prop :=
  tr.stats.wins ≤ tr.stats.totalTrades ∧ 0 ≤ tr.stats.winRate ∧ tr.stats.winRate ≤ 100

lemma statsInv_updateBalanceT (d : ℚ) (t : ℤ) (tr : Trader)
    (h : StatsInv tr) : StatsInv (updateBalanceT d t tr) := h

lemma statsInv_registerTradeT (trade : Trade) (tr : Trader)
    (h : StatsInv tr) : StatsInv (registerTradeT trade tr) := by
  obtain ⟨hw, h0, h100⟩ := h
  unfold registerTradeT StatsInv
  simp only []
  refine ⟨?_, ?_⟩
  · split <;> omega
  · have hne : (tr.stats.totalTrades + 1 == 0) = false := by simp
    rw [hne]
    simp only [Bool.false_eq_true, if_false]
    set w : ℕ := tr.stats.wins + (if (match trade.pnl with
      | some p => p ≠ 0 && p > 0
      | none => false) then 1 else 0) with hw_def
    have hwle : w ≤ tr.stats.totalTrades + 1 := by
      rw [hw_def]; split <;> omega
    have htpos : (0 : ℚ) < (tr.stats.totalTrades + 1 : ℕ) := by positivity
    have hfrac0 : (0 : ℚ) ≤ (w : ℚ) / ((tr.stats.totalTrades + 1 : ℕ) : ℚ) * 100 := by
      positivity
    have hfrac1 : (w : ℚ) / ((tr.stats.totalTrades + 1 : ℕ) : ℚ) * 100 ≤ 100 := by
      have hle : (w : ℚ) ≤ ((tr.stats.totalTrades + 1 : ℕ) : ℚ) := by
        exact_mod_cast hwle
      have hdiv : (w : ℚ) / ((tr.stats.totalTrades + 1 : ℕ) : ℚ) ≤ 1 :=
        (div_le_one htpos).mpr hle
      linarith
    exact ⟨round1_nonneg hfrac0, round1_le_hundred hfrac1⟩

lemma peak_mono_applyRegOp (op : RegOp) (tr : Trader) :
    tr.stats.peakBalance ≤ (applyRegOp op tr).stats.peakBalance := by
  cases op with
  | adjust d t => exact le_max_left _ _
  | record trade => exact le_refl _

lemma drawdown_mono_applyRegOp (op : RegOp) (tr : Trader) :
    tr.stats.maxDrawdown ≤ (applyRegOp op tr).stats.maxDrawdown := by
  cases op with
  | adjust d t => exact le_max_left _ _
  | record trade => exact le_refl _

lemma statsInv_applyRegOp (op : RegOp) (tr : Trader) (h : StatsInv tr) :
    StatsInv (applyRegOp op tr) := by
  cases op with
  | adjust d t => exact statsInv_updateBalanceT d t tr h
  | record trade => exact statsInv_registerTradeT trade tr h

/-- C9: for every agent and every sequence of updateBalance and
registerTrade operations, peakBalance and maxDrawdown never decrease from
one operation to the next, and (given the statistics were sane before, as
they are initially) wins stay at most totalTrades and winRate stays within
[0, 100]. -/
theorem C9_stats_invariants (tr : Trader) (ops : List RegOp) (h : StatsInv tr) :
    StatsInv (ops.foldl (fun t op => applyRegOp op t) tr) ∧
    tr.stats.peakBalance ≤ (ops.foldl (fun t op => applyRegOp op t) tr).stats.peakBalance ∧
    tr.stats.maxDrawdown ≤ (ops.foldl (fun t op => applyRegOp op t) tr).stats.maxDrawdown := by
  induction ops generalizing tr with
  | nil => exact ⟨h, le_refl _, le_refl _⟩
  | cons op rest ih =>
    obtain ⟨a, b, c⟩ := ih (applyRegOp op tr) (statsInv_applyRegOp op tr h)
    exact ⟨a, le_trans (peak_mono_applyRegOp op tr) b,
           le_trans (drawdown_mono_applyRegOp op tr) c⟩

/-- Witness for C9: the initial grok agent with one balance adjustment and
one recorded trade. -/
theorem C9_stats_invariants_witness :
    (StatsInv ([RegOp.adjust 5 1, RegOp.record sampleClosed].foldl
        (fun t op => applyRegOp op t)
        (mkTrader 0 "grok" "Grok" "grok" "🤖" "Alta" ["BTC", "ETH"] "Técnico")) ∧
     (mkTrader 0 "grok" "Grok" "grok" "🤖" "Alta" ["BTC", "ETH"] "Técnico").stats.peakBalance ≤
       ([RegOp.adjust 5 1, RegOp.record sampleClosed].foldl (fun t op => applyRegOp op t)
         (mkTrader 0 "grok" "Grok" "grok" "🤖" "Alta" ["BTC", "ETH"] "Técnico")).stats.peakBalance ∧
     (mkTrader 0 "grok" "Grok" "grok" "🤖" "Alta" ["BTC", "ETH"] "Técnico").stats.maxDrawdown ≤
       ([RegOp.adjust 5 1, RegOp.record sampleClosed].foldl (fun t op => applyRegOp op t)
         (mkTrader 0 "grok" "Grok" "grok" "🤖" "Alta" ["BTC", "ETH"] "Técnico")).stats.maxDrawdown) :=
  C9_stats_invariants (mkTrader 0 "grok" "Grok" "grok" "🤖" "Alta" ["BTC", "ETH"] "Técnico")
    [RegOp.adjust 5 1, RegOp.record sampleClosed]
    ⟨le_refl 0, le_refl 0, by norm_num [mkTrader]⟩

/-! ### Ring buffer bounds (claim C1) -/

lemma length_tickAsset_history (d v sh : ℚ) (t : ℤ) (a : Asset) :
    (tickAsset d v sh t a).history.length = min 120 a.history.length + 1 := by
  unfold tickAsset
  simp only []
  rw [List.length_append, length_sliceLast]
  simp

lemma market_bound_generateNextTick (o : TickOracle) (m : MarketState) :
    ∀ a ∈ (generateNextTick o m).assets, a.history.length ≤ 121 := by
  intro a ha
  unfold generateNextTick at ha
  simp only [List.mem_map] at ha
  obtain ⟨b, hb, rfl⟩ := ha
  rw [length_tickAsset_history]
  omega

set_option maxRecDepth 4000 in
lemma balanceHistory_updateBalanceT (d : ℚ) (t : ℤ) (tr : Trader) :
    (updateBalanceT d t tr).balanceHistory.length ≤ 240 := by
  have h : (updateBalanceT d t tr).balanceHistory = sliceLast 240
      (tr.balanceHistory ++ [{ time := t, balance := round2 (tr.balance + d) }]) := rfl
  rw [h]
  exact length_sliceLast_le 240 _

lemma balance_bound_modifyTrader {s : TradersState} (id : String) (f : Trader → Trader)
    (hf : ∀ tr, tr.balanceHistory.length ≤ 240 → (f tr).balanceHistory.length ≤ 240)
    (h : ∀ kv ∈ s.traders, kv.2.balanceHistory.length ≤ 240) :
    ∀ kv ∈ (modifyTrader id f s).traders, kv.2.balanceHistory.length ≤ 240 := by
  intro kv hkv
  unfold modifyTrader at hkv
  simp only [List.mem_map] at hkv
  obtain ⟨kv0, hkv0, rfl⟩ := hkv
  by_cases hb : (kv0.1 == id) = true
  · rw [hb]
    simp only [if_true]
    exact hf kv0.2 (h kv0 hkv0)
  · have hb' : (kv0.1 == id) = false := by simpa using hb
    rw [hb']
    simpa using h kv0 hkv0

lemma balance_bound_updateBalance {s : TradersState} (id : String) (d : ℚ) (t : ℤ)
    (h : ∀ kv ∈ s.traders, kv.2.balanceHistory.length ≤ 240) :
    ∀ kv ∈ (updateBalance id d t s).traders, kv.2.balanceHistory.length ≤ 240 :=
  balance_bound_modifyTrader id _ (fun tr _ => balanceHistory_updateBalanceT d t tr) h

lemma balance_bound_registerTrade {s : TradersState} (id : String) (trade : Trade)
    (h : ∀ kv ∈ s.traders, kv.2.balanceHistory.length ≤ 240) :
    ∀ kv ∈ (registerTrade id trade s).traders, kv.2.balanceHistory.length ≤ 240 :=
  balance_bound_modifyTrader id _ (fun _ htr => htr) h

lemma balance_bound_setAnalysis {s : TradersState} (id txt : String)
    (h : ∀ kv ∈ s.traders, kv.2.balanceHistory.length ≤ 240) :
    ∀ kv ∈ (setAnalysis id txt s).traders, kv.2.balanceHistory.length ≤ 240 :=
  balance_bound_modifyTrader id _ (fun _ htr => htr) h

lemma history_closeTrade_le (tid : String) (xp : ℚ) (t : ℤ) (s : TradesState)
    (h : s.history.length ≤ 200) :
    ((closeTrade tid xp t s).2).history.length ≤ 200 := by
  unfold closeTrade
  cases hb : extractFirst (fun trade => trade.id == tid) s.openPositions with
  | none => exact h
  | some r =>
    obtain ⟨tr, rest⟩ := r
    simp only []
    rw [List.length_take]
    omega

/-- The balance-history and closed-log bounds, on the pair of stores the
per-trader loop threads. -/
def PairBounded (st : TradesState × TradersState) : Prop :=
  (∀ kv ∈ st.2.traders, kv.2.balanceHistory.length ≤ 240) ∧
  st.1.history.length ≤ 200

lemma pairBounded_closeStep (o : TickOracle) (market : MarketState)
    (trader : Trader) (t : ℤ) (st : TradesState × TradersState) (trade : Trade)
    (h : PairBounded st) : PairBounded (closeStep o market trader t st trade) := by
  obtain ⟨ht, hh⟩ := h
  unfold closeStep
  simp only []
  repeat' split
  all_goals try exact ⟨ht, hh⟩
  all_goals
    rename_i closed trades heq
    have hclose := history_closeTrade_le trade.id
      (assetPrice market trade.asset trade.entryPrice) t st.1 hh
    rw [heq] at hclose
    exact ⟨balance_bound_setAnalysis _ _
        (balance_bound_registerTrade _ _
          (balance_bound_updateBalance _ _ _ ht)), hclose⟩

lemma pairBounded_maybeCloseTrades (o : TickOracle) (market : MarketState)
    (trader : Trader) (t : ℤ) (st : TradesState × TradersState)
    (h : PairBounded st) : PairBounded (maybeCloseTrades o market trader t st) := by
  unfold maybeCloseTrades
  exact foldl_inv PairBounded (closeStep o market trader t)
    (fun st trade hst => pairBounded_closeStep o market trader t st trade hst) _ st h

lemma pairBounded_maybeOpenTrade (o : TickOracle) (market : MarketState)
    (trader : Trader) (t : ℤ) (st : TradesState × TradersState)
    (h : PairBounded st) : PairBounded (maybeOpenTrade o market trader t st) := by
  obtain ⟨ht, hh⟩ := h
  unfold maybeOpenTrade
  simp only []
  repeat' split
  all_goals first
    | exact ⟨ht, hh⟩
    | exact ⟨balance_bound_setAnalysis _ _ ht, hh⟩

lemma pairBounded_traderStep (o : TickOracle) (market : MarketState) (t : ℤ)
    (st : TradesState × TradersState) (trader : Trader)
    (h : PairBounded st) : PairBounded (traderStep o market t st trader) :=
  pairBounded_maybeOpenTrade o market trader t _
    (pairBounded_maybeCloseTrades o market trader t st h)

/-- The three ring-buffer bounds of the amended C1, on the whole state. -/
def BuffersBounded (s : SimState) : Prop :=
  (∀ a ∈ s.market.assets, a.history.length ≤ 121) ∧
  (∀ kv ∈ s.traders.traders, kv.2.balanceHistory.length ≤ 240) ∧
  s.trades.history.length ≤ 200

lemma buffersBounded_stepEv (s : SimState) (e : Ev)
    (h : BuffersBounded s) : BuffersBounded (stepEv s e) := by
  obtain ⟨hm, ht, hh⟩ := h
  cases e with
  | tick o =>
    have hpair : PairBounded ((s.traders.traders.map (fun kv => kv.2)).foldl
        (traderStep o (generateNextTick o s.market) o.now) (s.trades, s.traders)) :=
      foldl_inv PairBounded (traderStep o (generateNextTick o s.market) o.now)
        (fun st trader hst =>
          pairBounded_traderStep o (generateNextTick o s.market) o.now st trader hst)
        _ (s.trades, s.traders) ⟨ht, hh⟩
    exact ⟨market_bound_generateNextTick o s.market, hpair.1, hpair.2⟩
  | adjust id d t =>
    exact ⟨hm, balance_bound_updateBalance id d t ht, hh⟩
  | close tid xp t =>
    exact ⟨hm, ht, history_closeTrade_le tid xp t s.trades hh⟩

/-- C1 (amended): in every state reachable from the initial state by any
sequence of simulation ticks, balance adjustments and trade closes, each
asset's price history holds at most 121 entries (generateNextTick trims to
the last 120 entries before pushing the new point, so the buffer settles at
121, one more than the claimed 120), each agent's balance history holds at
most 240 entries, and the closed-trade log holds at most 200 entries. -/
theorem C1_amended_bounds (t0 : ℤ) (evs : List Ev) :
    BuffersBounded (evs.foldl stepEv (initState t0)) := by
  refine foldl_inv BuffersBounded stepEv
    (fun s e hs => buffersBounded_stepEv s e hs) evs (initState t0) ?_
  refine ⟨?_, ?_, ?_⟩
  · intro a ha
    simp only [initState, initialMarket, ASSETS, List.map_cons, List.map_nil,
      List.mem_cons, List.not_mem_nil, or_false] at ha
    rcases ha with rfl | rfl | rfl | rfl <;> simp
  · intro kv hkv
    simp only [initState, initialTraders, List.mem_cons, List.not_mem_nil, or_false] at hkv
    rcases hkv with rfl | rfl | rfl | rfl <;> simp [mkTrader]
  · simp [initState, initialTrades]

/-- A tick oracle with all draws pinned (no shock, no entries), used for the
C1 counterexample run. -/
def steadyOracle : TickOracle :=
  { now := 0
    drift := fun _ => 0
    vol := fun _ => 0
    shock := fun _ => 0
    closeRand := fun _ => 1
    openRand := fun _ => 1
    pickIdx := fun _ => 0
    sizeRand := fun _ => 0
    dirRand := fun _ => 0 }

/-- The asset-history lengths of a simulation state. -/
def histLens (s : SimState) : List ℕ := s.market.assets.map (fun a => a.history.length)

lemma histLens_tick (o : TickOracle) (s : SimState) :
    histLens (runSimulationTick o s) = (histLens s).map (fun n => min 120 n + 1) := by
  unfold histLens runSimulationTick generateNextTick
  simp only [List.map_map]
  apply List.map_congr_left
  intro a _
  simp only [Function.comp]
  rw [length_tickAsset_history]

lemma histLens_after (t0 : ℤ) (k : ℕ) :
    histLens ((List.replicate k (Ev.tick steadyOracle)).foldl stepEv (initState t0)) =
      [min (1+k) 121, min (1+k) 121, min (1+k) 121, min (1+k) 121] := by
  induction k with
  | zero =>
    simp [histLens, initState, initialMarket, ASSETS]
  | succ n ih =>
    rw [List.replicate_succ' n (Ev.tick steadyOracle), List.foldl_append]
    simp only [List.foldl_cons, List.foldl_nil]
    rw [show ∀ s : SimState, stepEv s (Ev.tick steadyOracle) =
          runSimulationTick steadyOracle s from fun s => rfl]
    rw [histLens_tick, ih]
    simp only [List.map_cons, List.map_nil]
    have harith : min 120 (min (1+n) 121) + 1 = min (1+(n+1)) 121 := by omega
    rw [harith]

/-- C1 counterexample: after 120 simulation ticks from the initial state,
every asset's price history holds 121 entries, so the claimed 120 bound on
the asset price history is violated in a reachable state. -/
theorem C1_counterexample :
    ¬ (∀ a ∈ ((List.replicate 120 (Ev.tick steadyOracle)).foldl stepEv
          (initState 0)).market.assets, a.history.length ≤ 120) := by
  intro hcl
  have h := histLens_after 0 120
  unfold histLens at h
  cases hassets : ((List.replicate 120 (Ev.tick steadyOracle)).foldl stepEv
      (initState 0)).market.assets with
  | nil => rw [hassets] at h; simp at h
  | cons a rest =>
    rw [hassets] at h
    simp only [List.map_cons] at h
    have h1 : a.history.length = min (1+120) 121 := (List.cons.injEq _ _ _ _).mp h |>.1
    have h2 : a.history.length ≤ 120 := hcl a (by rw [hassets]; exact List.mem_cons_self a rest)
    rw [h1] at h2
    omega

end AiTrading
